import Mathlib

set_option linter.unusedVariables false

/-! Verification of the conversation navigation engine.

The repository carries two revisions of the Conversation class side by
side.  Variant A accepts flows whose type is exactly "conversation"
(vertices in a steps map that carries precomputed per-vertex edges, plus
a starts list of entry ids).  Variant B accepts flows whose type merely
contains "flowchart" (raw vertices plus a flat edge list, per-vertex
edges derived on demand).  Both are embedded below; definitions suffixed
A or B translate the corresponding methods.

Step hooks are modelled as oracles: isReady is a constant answer (absent
when the instantiated module object has no isReady method), isComplete is
a stream of answers indexed by the number of isComplete calls already
made against that vertex, mirroring the sequential mock resolutions the
test-suite drives the code with; a per-vertex call counter is threaded
through the conversation state.  Hooks never throw in this model, so the
throwOnError flag is threaded but does not influence the oracles.

Asynchrony is sequentialised: the engine is single threaded and suspends
only at awaited hook queries, so each public operation is a function from
state to state.  The async generator genContinue is represented by the
id of the step it last yielded (where it is suspended) plus a done flag;
one resumption of the generator is one call of advA or advB.  Observer
fan-out is modelled by an event log of (action, step id) pairs appended
exactly when the source calls notify and the notify guard lets the
broadcast through; the subscription-list operations subscribe and
unsubscribe are modelled separately on plain lists.  Nested
sub-conversation hooks are represented by a marker constructor; the
public operations report delegation to the child or parent as an
explicit outcome instead of recursing into another instance. -/

/-- One directed transition of the parsed graph. -/
structure Edge where
  start : String
  end_ : String
  type : String := "arrow_point"
  stroke : String := "normal"
  text : String := "continue"
  labelType : String := "text"
  length : Nat := 1
  deriving DecidableEq

/-- Oracle for the object a vertex's behaviour module resolves to.  A
field is none when the object lacks that method (the mocks frequently
omit isReady or isComplete). -/
structure HookO where
  isReady : Option Bool := none
  isComplete : Option (Nat → Bool) := none

/-- A step's hook is either a plain module object or a nested
Conversation instance (the instanceof Conversation special case). -/
inductive HookKind where
  | leaf (h : HookO)
  | subconvo

/-- The runtime step record get returns: the vertex id, its adjacent
edges and the instantiated hook (none when no module was provided). -/
structure Step where
  id : String
  edgesFrom : List Edge := []
  edgesTo : List Edge := []
  hook : Option HookKind := none

/-- Variant A vertex: flow.steps[id], with precomputed edges and props.
hook is the behaviour of props.module when present; flowType is the
type field of the embedded nested props.flow when one is present (none
when no flow is embedded; an embedded flow always carries its type
string); src records props.src (variant A never reads it). -/
structure VertexA where
  id : String
  edgesFrom : List Edge := []
  edgesTo : List Edge := []
  vtype : Option String := none
  hook : Option HookO := none
  flowType : Option String := none
  src : Option String := none

/-- Variant A flow: type must be "conversation". -/
structure FlowA where
  type : String
  steps : List (String × VertexA) := []
  starts : List String := []

/-- Variant B vertex: flow.vertices[id]; uri is props.uri, read by the
variant B start scan. -/
structure VertexB where
  id : String
  vtype : Option String := none
  hook : Option HookO := none
  flowType : Option String := none
  src : Option String := none
  uri : Option String := none

/-- Variant B flow: type must contain "flowchart"; edges are a flat
list, filtered per vertex on demand. -/
structure FlowB where
  type : String
  vertices : List (String × VertexB) := []
  edges : List Edge := []

/-- The errors the engine can surface.  typeMismatch is the modelled
conversation's own constructor guard rejecting the supplied graph;
subflowMismatch is the distinct failure in which resolving a subroutine
vertex constructs a nested conversation whose own guard throws (get
forwards props with src destructured away, so the nested constructor
sees either no flow at all or the embedded flow, and raises its type
error when that flow is missing or mistyped) — the JS message is the
nested conversation's, raised during vertex resolution, never by the
construction of the conversation being modelled.  fuel is a modelling
artefact: the bound on generator resumptions ran out (the source has no
counterpart; every theorem below supplies enough fuel). -/
inductive Err where
  | typeMismatch
  | noStart
  | missingSub (id : String)
  | subflowMismatch (id : String)
  | typeError
  | fuel
  deriving DecidableEq

/-- Decidable equality of results, for evaluating concrete runs. -/
instance {ε α : Type} [DecidableEq ε] [DecidableEq α] : DecidableEq (Except ε α) := by
  intro a b
  cases a <;> cases b <;>
    first
      | (apply isFalse; intro h; exact Except.noConfusion h)
      | (rename_i x y
         exact if hxy : x = y then isTrue (by rw [hxy]) else
           isFalse (by intro h; injection h with h; exact hxy h))

/-- Constructor guard of variant A: throw unless flow.type is exactly
"conversation" ("Only conversation flows are supported."). -/
def checkTypeA (F : FlowA) : Except Err Unit :=
  if F.type == "conversation" then .ok () else .error .typeMismatch

/-- JS String.prototype.includes: sub occurs contiguously in s. -/
def strIncludes (s sub : String) : Bool :=
  (List.range (s.data.length + 1)).any (fun i => sub.data.isPrefixOf (s.data.drop i))

/-- Constructor guard of variant B: throw unless flow.type contains
"flowchart" ("Only flowcharts are supported."). -/
def checkTypeB (F : FlowB) : Except Err Unit :=
  if strIncludes F.type "flowchart" then .ok () else .error .typeMismatch

/-- JS truthiness of the destructured src in variant B's subroutine
check: undefined and the empty string are falsy. -/
def srcFalsy : Option String → Bool
  | none => true
  | some s => s == ""

/-- Variant A Conversation.get for an explicit id: undefined when the id
is not in flow.steps; a subroutine vertex without an embedded nested
flow throws the missing-subroutine-source error (variant A never
consults props.src); with an embedded flow the hook is a nested
Conversation constructed over it, whose own guard rejects unless the
nested flow's type is exactly "conversation"; otherwise the module is
instantiated into the hook and the step carries the vertex's
precomputed edges. -/
def getA (F : FlowA) (id : String) : Except Err (Option Step) :=
  match F.steps.lookup id with
  | none => .ok none
  | some v =>
    if v.vtype == some "subroutine" then
      match v.flowType with
      | none => .error (.missingSub id)
      | some t =>
        if t == "conversation" then
          .ok (some { id := id, edgesFrom := v.edgesFrom, edgesTo := v.edgesTo,
                      hook := some .subconvo })
        else .error (.subflowMismatch id)
    else .ok (some { id := id, edgesFrom := v.edgesFrom, edgesTo := v.edgesTo,
                     hook := v.hook.map .leaf })

/-- Edges of the variant B flow ending at id (the reduce in get). -/
def edgesFromB (F : FlowB) (id : String) : List Edge :=
  F.edges.filter (fun e => e.end_ == id)

/-- Edges of the variant B flow starting at id (the reduce in get). -/
def edgesToB (F : FlowB) (id : String) : List Edge :=
  F.edges.filter (fun e => e.start == id)

/-- Variant B Conversation.get for an explicit id: a subroutine vertex
escapes the missing-subroutine-source error when either a truthy src or
an embedded flow is present, but the hook instantiation then calls the
conversation factory with src destructured out of the forwarded props:
with no embedded flow the nested constructor sees no flow at all and
its guard throws, and with an embedded flow it throws unless the nested
flow's type contains "flowchart"; the step's edges are derived from the
flat edge list. -/
def getB (F : FlowB) (id : String) : Except Err (Option Step) :=
  match F.vertices.lookup id with
  | none => .ok none
  | some v =>
    if v.vtype == some "subroutine" then
      if srcFalsy v.src && v.flowType.isNone then .error (.missingSub id)
      else
        match v.flowType with
        | none => .error (.subflowMismatch id)
        | some t =>
          if strIncludes t "flowchart" then
            .ok (some { id := id, edgesFrom := edgesFromB F id, edgesTo := edgesToB F id,
                        hook := some .subconvo })
          else .error (.subflowMismatch id)
    else .ok (some { id := id, edgesFrom := edgesFromB F id, edgesTo := edgesToB F id,
                     hook := v.hook.map .leaf })

/-- The hook a vertex materialises to, re-read from the flow (a step
object holds the hook built by the get that produced it; the data is a
function of the vertex, so it is recovered by lookup). -/
def hookOfA (F : FlowA) (id : String) : Option HookKind :=
  match F.steps.lookup id with
  | none => none
  | some v =>
    if v.vtype == some "subroutine" then some .subconvo else v.hook.map .leaf

/-- Variant B counterpart of hookOfA. -/
def hookOfB (F : FlowB) (id : String) : Option HookKind :=
  match F.vertices.lookup id with
  | none => none
  | some v =>
    if v.vtype == some "subroutine" then some .subconvo else v.hook.map .leaf

/-- Outgoing edges of a variant A vertex. -/
def edgesToOfA (F : FlowA) (id : String) : List Edge :=
  match F.steps.lookup id with
  | none => []
  | some v => v.edgesTo

/-- True when the optional hook is a nested Conversation (the
hook instanceof Conversation dispatch). -/
def isSubHook : Option HookKind → Bool
  | some .subconvo => true
  | _ => false

/-- Truthiness of the optional chain step?.hook?.isReady?.() used by
variant A: false when the step, the hook or the method is absent.  A
nested conversation that resolved its starting step reports ready; no
claim below places a subroutine in a readiness scan. -/
def stepReady : Option HookKind → Bool
  | some (.leaf h) => h.isReady.getD false
  | some .subconvo => true
  | none => false

/-- Same chain applied to an optional step. -/
def stepReadyOpt : Option Step → Bool
  | some s => stepReady s.hook
  | none => false

/-- Increment the per-vertex isComplete call counter at id. -/
def bump (cnt : String → Nat) (id : String) : String → Nat :=
  fun j => if j = id then cnt j + 1 else cnt j

/-- Variant A generator query await next?.hook?.isComplete?.(): every
link is optional, so a missing hook or method is simply not complete;
a present method consumes one oracle answer.  A nested conversation's
aggregate completeness is state of another instance; no claim below
drives the generator over a subroutine step, so it reads not complete. -/
def qCompleteA (cnt : String → Nat) (id : String) : Option HookKind → Bool × (String → Nat)
  | some (.leaf h) =>
    match h.isComplete with
    | some f => (f (cnt id), bump cnt id)
    | none => (false, cnt)
  | some .subconvo => (false, cnt)
  | none => (false, cnt)

/-- Variant B generator query await step?.hook?.isComplete(): the call
itself is not optional, so a hook without an isComplete method raises a
TypeError; a missing step or hook short-circuits to not complete.  A
nested variant B conversation's isComplete always resolves true (see
isCompleteB below), so a subroutine hook reads complete. -/
def qCompleteB (cnt : String → Nat) (id : String) : Option HookKind → Except Err (Bool × (String → Nat))
  | some (.leaf h) =>
    match h.isComplete with
    | some f => .ok (f (cnt id), bump cnt id)
    | none => .error .typeError
  | some .subconvo => .ok (true, cnt)
  | none => .ok (false, cnt)

/-- The notify method, shared by both variants: observers are called
with (action, step) unless the action is "start" and a parent exists;
the event log records each broadcast that goes through.  notify also
always adopts the step as current, which the callers below perform. -/
def notify (hasParent : Bool) (events : List (String × Option String))
    (action : String) (step : Option String) : List (String × Option String) :=
  if action != "start" || !hasParent then events ++ [(action, step)] else events

/-- State of one variant A Conversation: the current step (this.step),
the breadcrumb ids, the per-vertex isComplete call counters, the event
log, whether a parent exists, and the generator position (the id it is
suspended on having yielded, plus whether it has returned). -/
structure ConvA where
  current : Option String
  crumbs : List String
  counts : String → Nat
  events : List (String × Option String)
  hasParent : Bool
  genNext : Option String
  genDone : Bool

/-- State of one variant B Conversation.  Its generator re-reads
this.step on resumption, so only started/done flags are needed. -/
structure ConvB where
  current : Option String
  crumbs : List String
  counts : String → Nat
  events : List (String × Option String)
  hasParent : Bool
  genStarted : Bool
  genDone : Bool

/-- Result of one generator resumption: the yielded step id (none for a
return) and the done flag. -/
structure GenRes where
  value : Option String
  done : Bool
  deriving DecidableEq

/-- Outcome of a public navigation call: delegated down to the child
conversation, bubbled up to the parent, or returned a step (possibly
undefined). -/
inductive NavOut where
  | toChild (idArg : Option String)
  | toParent (idArg : Option String)
  | ret (s : Option String)
  deriving DecidableEq

/-- Whether the current step's hook is a nested Conversation. -/
def currentIsSubA (F : FlowA) (st : ConvA) : Bool :=
  match st.current with
  | some cid => isSubHook (hookOfA F cid)
  | none => false

/-- Variant B counterpart of currentIsSubA. -/
def currentIsSubB (F : FlowB) (st : ConvB) : Bool :=
  match st.current with
  | some cid => isSubHook (hookOfB F cid)
  | none => false

/-- Readiness query of one scan candidate in variant A: resolve the
edge's end vertex with get, then the all-optional chain
_next?.hook?.isReady?.(). -/
def readyQA (F : FlowA) (id : String) : Except Err Bool :=
  match getA F id with
  | .error e => .error e
  | .ok none => .ok false
  | .ok (some s) => .ok (stepReady s.hook)

/-- Readiness query of one scan candidate in variant B: the chain is
_next?.hook.isReady(), so a resolved step whose hook or isReady method
is missing raises a TypeError. -/
def readyQB (F : FlowB) (id : String) : Except Err Bool :=
  match getB F id with
  | .error e => .error e
  | .ok none => .ok false
  | .ok (some s) =>
    match s.hook with
    | some (.leaf h) =>
      match h.isReady with
      | some b => .ok b
      | none => .error .typeError
    | some .subconvo => .ok true
    | none => .error .typeError

/-- Variant A successor scan: walk the completed step's outgoing edges
in declared order and take the first candidate that resolves and is
ready (the for loop exits through continue outer on the first hit). -/
def scanToA (F : FlowA) : List Edge → Except Err (Option String)
  | [] => .ok none
  | e :: es =>
    match readyQA F e.end_ with
    | .error err => .error err
    | .ok true => .ok (some e.end_)
    | .ok false => scanToA F es

/-- Variant B successor scan: the same walk, but the loop body ends
with next = _next and no break, so every candidate is queried and the
last ready one wins. -/
def scanToB (F : FlowB) : List Edge → Except Err (Option String)
  | [] => .ok none
  | e :: es =>
    match readyQB F e.end_ with
    | .error err => .error err
    | .ok r =>
      match scanToB F es with
      | .error err => .error err
      | .ok rest => .ok (rest.orElse (fun _ => if r then some e.end_ else none))

/-- Modelled from the spec: scan the outgoing edges in declared order;
the first candidate whose isReady() resolves true becomes the next
step.  Stated over a pure readiness assignment for comparison with the
scans the code performs. -/
def firstReadySpec (r : String → Bool) : List Edge → Option String
  | [] => none
  | e :: es => if r e.end_ then some e.end_ else firstReadySpec r es

/-- The last-declared ready candidate, the policy variant B's scan
implements. -/
def lastReadySpec (r : String → Bool) : List Edge → Option String
  | [] => none
  | e :: es => (lastReadySpec r es).orElse (fun _ => if r e.end_ then some e.end_ else none)

/-- One resumption of variant A's genContinue from its yield, received
value idArg.  The loop re-checks the suspended step's completeness; if
complete it pushes the breadcrumb and either jumps to the explicit
target (the received id stays in scope for the next round) or scans the
outgoing edges first-ready-wins, re-entering the loop on the chosen
step, so several complete steps can be crossed in one resumption; an
incomplete step is yielded unchanged; running out of candidates returns
undefined and finishes the generator.  Counter and breadcrumb effects
persist even when a get throws. -/
def advA (F : FlowA) : Nat → Option String → Option String → (String → Nat) → List String →
    Except Err GenRes × (String → Nat) × List String
  | 0, _, _, cnt, cr => (.error .fuel, cnt, cr)
  | fuel+1, next?, idArg, cnt, cr =>
    match next? with
    | none => (.ok ⟨none, true⟩, cnt, cr)
    | some nid =>
      let q := qCompleteA cnt nid (hookOfA F nid)
      if q.1 then
        let cr1 := cr ++ [nid]
        match idArg with
        | some t =>
          match getA F t with
          | .error e => (.error e, q.2, cr1)
          | .ok s? => advA F fuel (s?.map (fun s => s.id)) idArg q.2 cr1
        | none =>
          match scanToA F (edgesToOfA F nid) with
          | .error e => (.error e, q.2, cr1)
          | .ok (some n) => advA F fuel (some n) none q.2 cr1
          | .ok none => advA F fuel none none q.2 cr1
      else (.ok ⟨some nid, false⟩, q.2, cr)

/-- One resumption of variant B's genContinue from its yield, received
value idArg.  The body resolves the received id (or re-reads this.step
when none was sent), yields it back when incomplete, and otherwise
pushes the breadcrumb, scans the outgoing edges last-ready-wins and
yields the chosen step, finishing when none is ready. -/
def advB (F : FlowB) (st : ConvB) (idArg : Option String) : Except Err (GenRes × ConvB) :=
  let step? : Except Err (Option String) :=
    match idArg with
    | some t =>
      match getB F t with
      | .error e => .error e
      | .ok s? => .ok (s?.map (fun s => s.id))
    | none => .ok st.current
  match step? with
  | .error e => .error e
  | .ok none => .ok (⟨none, true⟩, st)
  | .ok (some sid) =>
    match qCompleteB st.counts sid (hookOfB F sid) with
    | .error e => .error e
    | .ok (b, cnt1) =>
      let st1 := { st with counts := cnt1 }
      if b then
        let st2 := { st1 with crumbs := st1.crumbs ++ [sid] }
        match scanToB F (edgesToB F sid) with
        | .error e => .error e
        | .ok (some n) => .ok (⟨some n, false⟩, st2)
        | .ok none => .ok (⟨none, true⟩, st2)
      else .ok (⟨some sid, false⟩, st1)

/-- this.gen.next(idArg) for variant B: a finished generator keeps
answering done; the first call runs the body from the top, which yields
this.step (discarding the sent value); later calls resume at the yield
via advB. -/
def genNextB (F : FlowB) (st : ConvB) (idArg : Option String) : Except Err (GenRes × ConvB) :=
  if st.genDone then .ok (⟨none, true⟩, st)
  else if !st.genStarted then
    .ok (⟨st.current, st.current.isNone⟩,
         { st with genStarted := true, genDone := st.current.isNone })
  else
    match advB F st idArg with
    | .error e => .error e
    | .ok (res, st1) => .ok (res, { st1 with genDone := res.done })

/-- All-zero isComplete call counters. -/
def zeroCnt : String → Nat := fun _ => 0

/-- Variant A Conversation.continue(id, fromChild).  A nested current
hook is delegated to first; otherwise the generator is resumed once
(a finished generator keeps answering done with undefined).  A yielded
step with the same id as the current one (both undefined also compare
equal) is returned without notifying; a done generator bubbles to the
parent when one exists; otherwise notify is called with "done" at the
true root, else with the explicit target id or "continue". -/
def continueA (F : FlowA) (fuel : Nat) (st : ConvA) (idArg : Option String)
    (fromChild : Bool) : Except Err (NavOut × ConvA) :=
  if !fromChild && currentIsSubA F st then .ok (.toChild idArg, st)
  else
    let r :=
      if st.genDone then ((.ok ⟨none, true⟩ : Except Err GenRes), st.counts, st.crumbs)
      else advA F fuel st.genNext idArg st.counts st.crumbs
    match r with
    | (.error e, _, _) => .error e
    | (.ok res, cnt1, cr1) =>
      let st1 : ConvA :=
        { st with
          counts := cnt1
          crumbs := cr1
          genNext := res.value
          genDone := st.genDone || res.done }
      if st.current == res.value then .ok (.ret res.value, st1)
      else if res.done && st.hasParent then .ok (.toParent idArg, st1)
      else
        let action := if res.done && !st.hasParent then "done" else idArg.getD "continue"
        .ok (.ret res.value,
             { st1 with
               current := res.value
               events := notify st1.hasParent st1.events action res.value })

/-- Variant B Conversation.continue(id, fromChild).  After resuming the
generator, a yielded (not done) step with no explicit target whose
completeness now reads true is notified as "continue" and the method
recurses; a done generator bubbles to the parent when one exists;
otherwise notify is called with "done", the explicit target id or
"continue". -/
def continueB (F : FlowB) : Nat → ConvB → Option String → Bool → Except Err (NavOut × ConvB)
  | 0, _, _, _ => .error .fuel
  | fuel+1, st, idArg, fromChild =>
    if !fromChild && currentIsSubB F st then .ok (.toChild idArg, st)
    else
      match genNextB F st idArg with
      | .error e => .error e
      | .ok (res, st1) =>
        let fin : ConvB → Except Err (NavOut × ConvB) := fun s2 =>
          if res.done && s2.hasParent then .ok (.toParent idArg, s2)
          else
            let action := if res.done then "done" else idArg.getD "continue"
            .ok (.ret res.value,
                 { s2 with
                   current := res.value
                   events := notify s2.hasParent s2.events action res.value })
        match idArg, res.done, res.value with
        | none, false, some vid =>
          (match qCompleteB st1.counts vid (hookOfB F vid) with
           | .error e => .error e
           | .ok (b, cnt2) =>
             let st2 := { st1 with counts := cnt2 }
             if b then
               continueB F fuel
                 { st2 with
                   current := res.value
                   events := notify st2.hasParent st2.events "continue" res.value }
                 none fromChild
             else fin st2)
        | _, _, _ => fin st1

/-- Variant A Conversation.back(fromChild): delegate to a nested
current hook first; with empty breadcrumbs return the parent
delegation, or undefined with no parent and no state change; otherwise
pop the most recent breadcrumb, notify "back" and adopt it. -/
def backA (F : FlowA) (st : ConvA) (fromChild : Bool) : NavOut × ConvA :=
  if !fromChild && currentIsSubA F st then (.toChild none, st)
  else if st.crumbs.isEmpty then
    if st.hasParent then (.toParent none, st) else (.ret none, st)
  else
    (.ret st.crumbs.getLast?,
     { st with
       crumbs := st.crumbs.dropLast
       current := st.crumbs.getLast?
       events := notify st.hasParent st.events "back" st.crumbs.getLast? })

/-- Variant B Conversation.back(fromChild): same body as variant A. -/
def backB (F : FlowB) (st : ConvB) (fromChild : Bool) : NavOut × ConvB :=
  if !fromChild && currentIsSubB F st then (.toChild none, st)
  else if st.crumbs.isEmpty then
    if st.hasParent then (.toParent none, st) else (.ret none, st)
  else
    (.ret st.crumbs.getLast?,
     { st with
       crumbs := st.crumbs.dropLast
       current := st.crumbs.getLast?
       events := notify st.hasParent st.events "back" st.crumbs.getLast? })

/-- One aggregate entry query in variant A's isComplete:
cur?.hook?.isComplete?.(throwOnError) ?? true, so an absent step, hook
or method counts as complete; a present method consumes one oracle
answer.  A subroutine entry asks the nested conversation's aggregate,
outside the one-level model; no claim below aggregates over one. -/
def qCompleteAgg (cnt : String → Nat) (F : FlowA) : Option String → Bool × (String → Nat)
  | none => (true, cnt)
  | some id =>
    match hookOfA F id with
    | some (.leaf h) =>
      match h.isComplete with
      | some f => (f (cnt id), bump cnt id)
      | none => (true, cnt)
    | some .subconvo => (true, cnt)
    | none => (true, cnt)

/-- Variant A Conversation.isComplete(throwOnError): query the current
step and every breadcrumb (all of them, no short circuit) and conjoin
the answers. -/
def isCompleteA (F : FlowA) (st : ConvA) (throwOnError : Bool) : Bool × (String → Nat) :=
  (st.current :: st.crumbs.map some).foldl
    (fun acc e =>
      let q := qCompleteAgg acc.2 F e
      (acc.1 && q.1, q.2))
    (true, st.counts)

/-- The calls variant B's isComplete makes: every breadcrumb's
cur.hook.isComplete(throwOnError), with no optional chaining, so a
breadcrumb without a hook or method raises a TypeError; each answer is
produced (consuming the oracle) and then discarded.  A subroutine
breadcrumb asks the nested variant B conversation, whose own aggregate
resolves true without consuming leaf oracles. -/
def crumbsCallsB (F : FlowB) : (String → Nat) → List String → Except Err (String → Nat)
  | cnt, [] => .ok cnt
  | cnt, id :: rest =>
    match hookOfB F id with
    | some (.leaf h) =>
      match h.isComplete with
      | some f => crumbsCallsB F (bump cnt id) rest
      | none => .error .typeError
    | some .subconvo => crumbsCallsB F cnt rest
    | none => .error .typeError

/-- Variant B Conversation.isComplete(throwOnError):
Boolean(await Promise.all(this.breadcrumbs.map(...))) — the Boolean of
an Array, which is true whatever the array holds, so the answer is true
regardless of the individual completeness results and the current step
is never consulted. -/
def isCompleteB (F : FlowB) (st : ConvB) (throwOnError : Bool) :
    Except Err (Bool × (String → Nat)) :=
  match crumbsCallsB F st.counts st.crumbs with
  | .error e => .error e
  | .ok cnt1 => .ok (true, cnt1)

/-- The loop of variant A's findStart: while a candidate step exists or
entries remain, break on the first candidate whose isReady chain
resolves true, otherwise fetch the next entry of flow.starts (falling
back to the id " " once the list is exhausted). -/
def findLoopA (F : FlowA) : Nat → Option Step → List String → Except Err (Option Step)
  | 0, _, _ => .error .fuel
  | fuel+1, step?, rest =>
    if step?.isNone && rest.isEmpty then .ok none
    else if stepReadyOpt step? then .ok step?
    else
      match getA F (rest.headD " ") with
      | .error e => .error e
      | .ok s? => findLoopA F fuel s? rest.tail

/-- Variant A construction: the constructor guard followed by
findStart(start).  An explicit (truthy) start id is resolved first, but
the loop still requires its isReady chain to resolve true before
breaking, falling back to the declared entries otherwise; with no step
found the no-starting-point error is thrown and this.step holds the
rejection.  On success notify broadcasts the explicit id when it was
adopted, else "start" (suppressed for a child), and the generator is
primed: it immediately re-checks the adopted step's completeness and
can cross already-complete steps before its first yield; a priming
failure is an unhandled rejection that kills the generator but not the
construction. -/
def initA (F : FlowA) (fuel : Nat) (start? : Option String) (hasParent : Bool) :
    Except Err ConvA :=
  match checkTypeA F with
  | .error e => .error e
  | .ok _ =>
    let step0 : Except Err (Option Step) :=
      match start? with
      | some s => if s == "" then .ok none else getA F s
      | none => .ok none
    match step0 with
    | .error e => .error e
    | .ok s0 =>
      match findLoopA F fuel s0 F.starts with
      | .error e => .error e
      | .ok none => .error .noStart
      | .ok (some s) =>
        let action := if some s.id == start? then s.id else "start"
        let evs := notify hasParent [] action (some s.id)
        let prime := advA F fuel (some s.id) none zeroCnt []
        .ok { current := some s.id,
              crumbs := prime.2.2,
              counts := prime.2.1,
              events := evs,
              hasParent := hasParent,
              genNext := match prime.1 with | .ok res => res.value | .error _ => none,
              genDone := match prime.1 with | .ok res => res.done | .error _ => true }

/-- Conversation.isReady, both variants: Boolean(await this.step) — a
rejected findStart rethrows, otherwise the truthiness of the current
step. -/
def isReadyA (r : Except Err ConvA) : Except Err Bool :=
  match r with
  | .error e => .error e
  | .ok st => .ok st.current.isSome

/-- Variant B counterpart of isReadyA. -/
def isReadyB (r : Except Err ConvB) : Except Err Bool :=
  match r with
  | .error e => .error e
  | .ok st => .ok st.current.isSome

/-- The do-while loop of variant B's findStart after the generator was
primed: while the step just yielded reports complete (the optional
chain vertex?.hook?.isComplete(), whose call is not optional), resume
the generator with that step's own id and loop on the new yield. -/
def findLoopB (F : FlowB) : Nat → Option String → ConvB → Except Err (Option String × ConvB)
  | 0, _, _ => .error .fuel
  | fuel+1, vertex?, st =>
    match vertex? with
    | none => .ok (none, st)
    | some vid =>
      match qCompleteB st.counts vid (hookOfB F vid) with
      | .error e => .error e
      | .ok (b, cnt1) =>
        let st1 := { st with counts := cnt1 }
        if b then
          match advB F st1 (some vid) with
          | .error e => .error e
          | .ok (res, st2) =>
            findLoopB F fuel res.value { st2 with genDone := res.done }
        else .ok (some vid, st1)

/-- The scan half of variant B's findStart: pick the first vertex whose
type is "stadium" or whose props.uri strictly equals the requested
start (both being undefined also matches, so with no explicit start the
first vertex without a uri is taken); this.step is set to its
resolution, the generator primed on it, and the walk of findLoopB
adopts the first incomplete yield, notifying "start" (suppressed for a
child); with nothing yielded the no-starting-point error is thrown. -/
def findScanB (F : FlowB) (fuel : Nat) (start? : Option String) (hasParent : Bool) :
    Except Err ConvB :=
  let init? := (F.vertices.find? (fun p =>
      p.2.vtype == some "stadium" || p.2.uri == start?)).map (fun p => p.1)
  let cur0 : Except Err (Option Step) :=
    match init? with
    | some i => getB F i
    | none => .ok none
  match cur0 with
  | .error e => .error e
  | .ok c0 =>
    let cur := c0.map (fun s => s.id)
    let st0 : ConvB :=
      { current := cur, crumbs := [], counts := zeroCnt, events := [],
        hasParent := hasParent, genStarted := true, genDone := cur.isNone }
    match findLoopB F fuel cur st0 with
    | .error e => .error e
    | .ok (none, _) => .error .noStart
    | .ok (some vid, st1) =>
      .ok { st1 with
            current := some vid
            events := notify hasParent st1.events "start" (some vid) }

/-- Variant B findStart(start): an explicit start naming a vertex is
resolved and adopted as current with no readiness requirement, notified
under the id itself as action, and the generator is primed on it;
otherwise the stadium/uri scan of findScanB runs. -/
def findStartB (F : FlowB) (fuel : Nat) (start? : Option String) (hasParent : Bool) :
    Except Err ConvB :=
  match start? with
  | some s =>
    if (F.vertices.lookup s).isSome then
      match getB F s with
      | .error e => .error e
      | .ok st? =>
        let cur := st?.map (fun x => x.id)
        .ok { current := cur, crumbs := [], counts := zeroCnt,
              events := notify hasParent [] s cur,
              hasParent := hasParent, genStarted := true, genDone := cur.isNone }
    else findScanB F fuel start? hasParent
  | none => findScanB F fuel start? hasParent

/-- Variant B construction: the constructor guard followed by
findStart (the optional external src JSON loading of the default
export is file I/O outside this model). -/
def initB (F : FlowB) (fuel : Nat) (start? : Option String) (hasParent : Bool) :
    Except Err ConvB :=
  match checkTypeB F with
  | .error e => .error e
  | .ok _ => findStartB F fuel start? hasParent

/-- JS Array.prototype.findIndex: index of the first match, or -1. -/
def findIndexJS {α : Type} (l : List α) (p : α → Bool) : Int :=
  match l.findIdx? p with
  | some n => (n : Int)
  | none => -1

/-- JS Array.prototype.splice(start, 1): remove one element at start,
counted from the end when start is negative (clamped at 0) and clamped
to the length from above. -/
def spliceOne {α : Type} (l : List α) (i : Int) : List α :=
  let s : Nat := if i < 0 then ((l.length : Int) + i).toNat else min i.toNat l.length
  l.take s ++ l.drop (s + 1)

/-- Conversation.unsubscribe applied to the observer list:
observers.splice(observers.findIndex(itm === observer), 1). -/
def unsubscribe {α : Type} [DecidableEq α] (observers : List α) (o : α) : List α :=
  spliceOne observers (findIndexJS observers (fun x => decide (x = o)))

/-- A hook that is ready and never complete. -/
def hReady : HookO := { isReady := some true, isComplete := some (fun _ => false) }

/-- A hook that is ready and always complete. -/
def hDone : HookO := { isReady := some true, isComplete := some (fun _ => true) }

/-- A hook that is never ready and never complete. -/
def hNotReady : HookO := { isReady := some false, isComplete := some (fun _ => false) }

/-- Edge start to skip of the first-ready scenario. -/
def eSkip : Edge := { start := "start", end_ := "skip" }

/-- Edge start to next of the first-ready scenario. -/
def eNext : Edge := { start := "start", end_ := "next" }

/-- Variant A flow of the skip/next scenario: start is complete and has
outgoing edges to skip (not ready) then next (ready). -/
def WF1a : FlowA :=
  { type := "conversation",
    steps := [("start", { id := "start", edgesTo := [eSkip, eNext], vtype := some "stadium",
                          hook := some hDone }),
              ("skip", { id := "skip", hook := some hNotReady }),
              ("next", { id := "next", hook := some hReady })],
    starts := ["start"] }

/-- Variant A state sitting on start with the generator suspended there. -/
def WS1a : ConvA :=
  { current := some "start", crumbs := [], counts := zeroCnt, events := [],
    hasParent := false, genNext := some "start", genDone := false }

/-- Variant B flow of the skip/next scenario. -/
def WF1b : FlowB :=
  { type := "flowchart",
    vertices := [("start", { id := "start", vtype := some "stadium", hook := some hDone }),
                 ("skip", { id := "skip", hook := some hNotReady }),
                 ("next", { id := "next", hook := some hReady })],
    edges := [eSkip, eNext] }

/-- Variant B state sitting on start with a live generator. -/
def WS1b : ConvB :=
  { current := some "start", crumbs := [], counts := zeroCnt, events := [],
    hasParent := false, genStarted := true, genDone := false }

/-- Variant B flow where start's two successors a and b are both ready. -/
def WF1c : FlowB :=
  { type := "flowchart",
    vertices := [("start", { id := "start", vtype := some "stadium", hook := some hDone }),
                 ("a", { id := "a", hook := some hReady }),
                 ("b", { id := "b", hook := some hReady })],
    edges := [{ start := "start", end_ := "a" }, { start := "start", end_ := "b" }] }

/-- Readiness of the two-ready counterexample, as a pure assignment. -/
def readyW1c : String → Bool := fun id => id == "a" || id == "b"

/-- Variant B flow of the completeness-bug input: a breadcrumb c1 whose
hook reports not complete, current step c0 also not complete. -/
def WF2b : FlowB :=
  { type := "flowchart",
    vertices := [("c0", { id := "c0", hook := some hReady }),
                 ("c1", { id := "c1", hook := some hReady })],
    edges := [] }

/-- Variant B state with history [c1] and current c0. -/
def WS2b : ConvB :=
  { current := some "c0", crumbs := ["c1"], counts := zeroCnt, events := [],
    hasParent := false, genStarted := true, genDone := false }

/-- The analogous variant A flow. -/
def WF2a : FlowA :=
  { type := "conversation",
    steps := [("c0", { id := "c0", hook := some hReady }),
              ("c1", { id := "c1", hook := some hReady })],
    starts := ["c0"] }

/-- The analogous variant A state. -/
def WS2a : ConvA :=
  { current := some "c0", crumbs := ["c1"], counts := zeroCnt, events := [],
    hasParent := false, genNext := some "c0", genDone := false }

/-- Variant A flow whose only vertex is not ready; starts is empty. -/
def WF3a : FlowA :=
  { type := "conversation",
    steps := [("other", { id := "other", hook := some hNotReady })],
    starts := [] }

/-- Variant A flow with a subroutine vertex that has an external src
locator but no embedded flow. -/
def WF4a : FlowA :=
  { type := "conversation",
    steps := [("sub", { id := "sub", vtype := some "subroutine",
                        src := some "./sub.json", flowType := none })],
    starts := [] }

/-- The same subroutine vertex in a variant B flow. -/
def WF4b : FlowB :=
  { type := "flowchart",
    vertices := [("sub", { id := "sub", vtype := some "subroutine",
                           src := some "./sub.json", flowType := none })],
    edges := [] }

/-- Variant A flow whose single declared entry is never ready. -/
def WF8a : FlowA :=
  { type := "conversation",
    steps := [("s1", { id := "s1", vtype := some "stadium", hook := some hNotReady })],
    starts := ["s1"] }

/-- One argumentless facade continue() of variant A as a state
transformer (identity when the call would reject); used only to state
repetition of the call. -/
def iterContA (F : FlowA) (fuel : Nat) (st : ConvA) : ConvA :=
  match continueA F fuel st none false with
  | .ok (_, st1) => st1
  | .error _ => st

/-- Variant B counterpart of iterContA. -/
def iterContB (F : FlowB) (fuel : Nat) (st : ConvB) : ConvB :=
  match continueB F fuel st none false with
  | .ok (_, st1) => st1
  | .error _ => st

/-- Variant A flow with a single never-complete step s. -/
def WF5a : FlowA :=
  { type := "conversation",
    steps := [("s", { id := "s", hook := some hReady })],
    starts := ["s"] }

/-- Variant A state sitting on s. -/
def WS5a : ConvA :=
  { current := some "s", crumbs := [], counts := zeroCnt, events := [],
    hasParent := false, genNext := some "s", genDone := false }

/-- Variant B flow with a single never-complete step s. -/
def WF5b : FlowB :=
  { type := "flowchart",
    vertices := [("s", { id := "s", hook := some hReady })],
    edges := [] }

/-- Variant B state sitting on s. -/
def WS5b : ConvB :=
  { current := some "s", crumbs := [], counts := zeroCnt, events := [],
    hasParent := false, genStarted := true, genDone := false }

/-- An empty variant A flow (back never consults the flow beyond the
current hook's kind). -/
def WF6a : FlowA := { type := "conversation" }

/-- Variant A state with history [a, b]. -/
def WS6a : ConvA :=
  { current := some "x", crumbs := ["a", "b"], counts := zeroCnt, events := [],
    hasParent := false, genNext := some "x", genDone := false }

/-- An empty variant B flow. -/
def WF6b : FlowB := { type := "flowchart" }

/-- Variant B state with history [a, b]. -/
def WS6b : ConvB :=
  { current := some "x", crumbs := ["a", "b"], counts := zeroCnt, events := [],
    hasParent := false, genStarted := true, genDone := false }

/-- Variant B flow whose only vertex other is never ready. -/
def WF3b : FlowB :=
  { type := "flowchart",
    vertices := [("other", { id := "other", hook := some hNotReady })],
    edges := [] }

theorem getB_current_id (F : FlowB) (s : String) (v : VertexB) (r : Option Step)
    (hl : F.vertices.lookup s = some v) (hg : getB F s = .ok r) :
    r.map (fun x => x.id) = some s := by
  unfold getB at hg
  simp only [hl] at hg
  split at hg
  · split at hg
    · simp at hg
    · split at hg
      · simp at hg
      · split at hg
        · injection hg with h
          subst h
          rfl
        · simp at hg
  · injection hg with h
    subst h
    rfl

/-- Claim C10: on a non-empty observer list, unsubscribing an observer
that was never subscribed removes the last-subscribed observer: the
findIndex miss yields -1, and splice(-1, 1) deletes from the end of the
list, silencing a different, still-subscribed observer. -/
theorem C10_unsubscribe_missing {α : Type} [DecidableEq α] (l : List α) (o : α)
    (hne : l ≠ []) (hmem : o ∉ l) : unsubscribe l o = l.dropLast := by
  have hfind : l.findIdx? (fun x => decide (x = o)) = none := by
    rw [List.findIdx?_eq_none_iff]
    intro x hx
    simp only [decide_eq_false_iff_not]
    intro hxo
    exact hmem (hxo ▸ hx)
  have hlen : 1 ≤ l.length := by
    cases l with
    | nil => exact absurd rfl hne
    | cons a t => simp
  unfold unsubscribe findIndexJS
  rw [hfind]
  unfold spliceOne
  have hs : (if (-1 : Int) < 0 then ((l.length : Int) + (-1)).toNat
             else min (-1 : Int).toNat l.length) = l.length - 1 := by
    rw [if_pos (by norm_num)]
    omega
  simp only [hs]
  have hdrop : l.drop (l.length - 1 + 1) = [] := by
    have h1 : l.length - 1 + 1 = l.length := by omega
    rw [h1, List.drop_length]
  rw [hdrop, List.append_nil, ← List.dropLast_eq_take]

/-- Witness for C10: the observer 5 was never subscribed to [1, 2], yet
unsubscribing it removes the still-subscribed observer 2. -/
theorem C10_witness :
    ([1, 2] : List Nat) ≠ [] ∧ (5 : Nat) ∉ ([1, 2] : List Nat) ∧
    unsubscribe ([1, 2] : List Nat) 5 = [1] :=
  ⟨by decide, by decide, by
    have h := C10_unsubscribe_missing ([1, 2] : List Nat) 5 (by decide) (by decide)
    simpa using h⟩

theorem notify_child_no_start (action : String) (v x : Option String) :
    ("start", x) ∉ notify true [] action v := by
  unfold notify
  by_cases h : action = "start"
  · subst h
    simp
  · have hb : (action != "start" || !true) = true := by simp [h]
    rw [if_pos hb]
    intro hm
    simp at hm
    exact h hm.1.symm

theorem advB_events (F : FlowB) (st : ConvB) (idArg : Option String) (res : GenRes)
    (st1 : ConvB) (h : advB F st idArg = .ok (res, st1)) : st1.events = st.events := by
  simp only [advB] at h
  split at h
  · simp at h
  · injection h with h
    injection h with h1 h2
    subst h2
    rfl
  · split at h
    · simp at h
    · split at h
      · split at h
        · simp at h
        · injection h with h
          injection h with h1 h2
          subst h2
          rfl
        · injection h with h
          injection h with h1 h2
          subst h2
          rfl
      · injection h with h
        injection h with h1 h2
        subst h2
        rfl

theorem findLoopB_events (F : FlowB) (fuel : Nat) :
    ∀ (v : Option String) (st : ConvB) (x : Option String) (st1 : ConvB),
      findLoopB F fuel v st = .ok (x, st1) → st1.events = st.events := by
  induction fuel with
  | zero =>
    intro v st x st1 h
    simp [findLoopB] at h
  | succ n ih =>
    intro v st x st1 h
    unfold findLoopB at h
    split at h
    · injection h with h
      injection h with h1 h2
      subst h2
      rfl
    · split at h
      · simp at h
      · split at h
        · simp only [] at h
          split at h
          · simp at h
          · rename_i res st2 heq
            have h2 := ih _ _ _ _ h
            have h3 := advB_events F _ _ _ _ heq
            exact h2.trans h3
        · injection h with h
          injection h with h1 h2
          subst h2
          rfl

theorem findScanB_child_no_start (F : FlowB) (fuel : Nat) (s : Option String) (c : ConvB)
    (h : findScanB F fuel s true = .ok c) (x : Option String) :
    ("start", x) ∉ c.events := by
  unfold findScanB at h
  simp only [] at h
  split at h
  · simp at h
  · split at h
    · simp at h
    · simp at h
    · rename_i vid st1 heq
      injection h with h
      subst h
      have hev : st1.events = [] := findLoopB_events F fuel _ _ _ _ heq
      show ("start", x) ∉ notify true st1.events "start" (some vid)
      have hsup : notify true st1.events "start" (some vid) = st1.events := by
        unfold notify
        simp
      rw [hsup, hev]
      simp

/-- Claim C9: notify suppresses the broadcast exactly when the action is
"start" and a parent exists, so a nested sub-conversation never emits a
"start" notification: any emission of "start" implies the conversation
is a root, and construction of either variant with a parent produces a
state whose event log contains no "start" action. -/
theorem C9_start_suppressed :
    (∀ (evs : List (String × Option String)) (s : Option String),
       notify true evs "start" s = evs) ∧
    (∀ (hp : Bool) (evs : List (String × Option String)) (a : String) (s : Option String),
       notify hp evs a s ≠ evs → a = "start" → hp = false) ∧
    (∀ (F : FlowA) (fuel : Nat) (s : Option String) (c : ConvA),
       initA F fuel s true = .ok c → ∀ x, ("start", x) ∉ c.events) ∧
    (∀ (F : FlowB) (fuel : Nat) (s : Option String) (c : ConvB),
       initB F fuel s true = .ok c → ∀ x, ("start", x) ∉ c.events) := by
  refine ⟨?_, ?_, ?_, ?_⟩
  · intro evs s
    unfold notify
    simp
  · intro hp evs a s hne ha
    subst ha
    cases hp with
    | false => rfl
    | true =>
      exfalso
      apply hne
      unfold notify
      simp
  · intro F fuel s c h x
    unfold initA at h
    split at h
    · simp at h
    · simp only [] at h
      split at h
      · simp at h
      · split at h
        · simp at h
        · simp at h
        · injection h with h
          subst h
          exact notify_child_no_start _ _ x
  · intro F fuel s c h x
    unfold initB at h
    split at h
    · simp at h
    · unfold findStartB at h
      split at h
      · split at h
        · split at h
          · simp at h
          · simp only [] at h
            injection h with h
            subst h
            exact notify_child_no_start _ _ x
        · exact findScanB_child_no_start F fuel _ c h x
      · exact findScanB_child_no_start F fuel _ c h x

/-- Witness for C9: a parented construction over the skip/next flow
succeeds and its event log carries no "start" broadcast. -/
theorem C9_witness :
    ∃ c, initA WF1a 4 none true = .ok c ∧ (∀ x, ("start", x) ∉ c.events) := by
  refine ⟨_, rfl, ?_⟩
  intro x
  exact C9_start_suppressed.2.2.1 WF1a 4 none _ rfl x

theorem getA_noTM (F : FlowA) (id : String) : getA F id ≠ .error .typeMismatch := by
  unfold getA
  split
  · simp
  · split
    · split
      · simp
      · split <;> simp
    · simp

theorem findLoopA_noTM (F : FlowA) (fuel : Nat) :
    ∀ (s? : Option Step) (rest : List String),
      findLoopA F fuel s? rest ≠ .error .typeMismatch := by
  induction fuel with
  | zero =>
    intro s? rest
    simp [findLoopA]
  | succ n ih =>
    intro s? rest
    unfold findLoopA
    split
    · simp
    · split
      · simp
      · split
        · rename_i e heq
          intro hcon
          injection hcon with hcon
          subst hcon
          exact getA_noTM F _ heq
        · exact ih _ _

theorem initA_noTM (F : FlowA) (fuel : Nat) (s : Option String) (hp : Bool)
    (ht : F.type = "conversation") : initA F fuel s hp ≠ .error .typeMismatch := by
  have hc : checkTypeA F = .ok () := by
    unfold checkTypeA
    rw [if_pos (by simp [ht])]
  unfold initA
  rw [hc]
  simp only []
  split
  · rename_i e heq
    intro hcon
    injection hcon with hcon
    subst hcon
    cases s with
    | none => simp at heq
    | some s0 =>
      simp only [] at heq
      by_cases hempty : (s0 == "") = true
      · rw [if_pos hempty] at heq
        simp at heq
      · rw [if_neg hempty] at heq
        exact getA_noTM F s0 heq
  · split
    · rename_i e heq
      intro hcon
      injection hcon with hcon
      subst hcon
      exact findLoopA_noTM F fuel _ _ heq
    · simp
    · simp

theorem getB_noTM (F : FlowB) (id : String) : getB F id ≠ .error .typeMismatch := by
  unfold getB
  split
  · simp
  · split
    · split
      · simp
      · split
        · simp
        · split <;> simp
    · simp

theorem qCompleteB_noTM (cnt : String → Nat) (id : String) (k : Option HookKind) :
    qCompleteB cnt id k ≠ .error .typeMismatch := by
  unfold qCompleteB
  split
  · split <;> simp
  · simp
  · simp

theorem readyQB_noTM (F : FlowB) (id : String) : readyQB F id ≠ .error .typeMismatch := by
  unfold readyQB
  split
  · rename_i e heq
    intro hcon
    injection hcon with hcon
    subst hcon
    exact getB_noTM F id heq
  · simp
  · split
    · split <;> simp
    · simp
    · simp

theorem scanToB_noTM (F : FlowB) :
    ∀ (es : List Edge), scanToB F es ≠ .error .typeMismatch := by
  intro es
  induction es with
  | nil => simp [scanToB]
  | cons e rest ih =>
    unfold scanToB
    split
    · rename_i err heq
      intro hcon
      injection hcon with hcon
      subst hcon
      exact readyQB_noTM F e.end_ heq
    · split
      · rename_i err heq
        intro hcon
        injection hcon with hcon
        subst hcon
        exact ih heq
      · simp

theorem advB_noTM (F : FlowB) (st : ConvB) (idArg : Option String) :
    advB F st idArg ≠ .error .typeMismatch := by
  unfold advB
  simp only []
  split
  · rename_i e heq
    intro hcon
    injection hcon with hcon
    subst hcon
    cases idArg with
    | none => simp at heq
    | some t =>
      simp only [] at heq
      split at heq
      · rename_i e2 heq2
        injection heq with h2
        subst h2
        exact getB_noTM F t heq2
      · simp at heq
  · simp
  · split
    · rename_i e heq
      intro hcon
      injection hcon with hcon
      subst hcon
      exact qCompleteB_noTM _ _ _ heq
    · split
      · split
        · rename_i e heq
          intro hcon
          injection hcon with hcon
          subst hcon
          exact scanToB_noTM F _ heq
        · simp
        · simp
      · simp

theorem findLoopB_noTM (F : FlowB) (fuel : Nat) :
    ∀ (v : Option String) (st : ConvB),
      findLoopB F fuel v st ≠ .error .typeMismatch := by
  induction fuel with
  | zero =>
    intro v st
    simp [findLoopB]
  | succ n ih =>
    intro v st
    unfold findLoopB
    split
    · simp
    · split
      · rename_i e heq
        intro hcon
        injection hcon with hcon
        subst hcon
        exact qCompleteB_noTM _ _ _ heq
      · split
        · simp only []
          split
          · rename_i e heq
            intro hcon
            injection hcon with hcon
            subst hcon
            exact advB_noTM F _ _ heq
          · exact ih _ _
        · simp

theorem findScanB_noTM (F : FlowB) (fuel : Nat) (s : Option String) (hp : Bool) :
    findScanB F fuel s hp ≠ .error .typeMismatch := by
  unfold findScanB
  simp only []
  split
  · rename_i e heq
    intro hcon
    injection hcon with hcon
    subst hcon
    split at heq
    · exact getB_noTM F _ heq
    · simp at heq
  · split
    · rename_i e heq
      intro hcon
      injection hcon with hcon
      subst hcon
      exact findLoopB_noTM F fuel _ _ heq
    · simp
    · simp

theorem findStartB_noTM (F : FlowB) (fuel : Nat) (s : Option String) (hp : Bool) :
    findStartB F fuel s hp ≠ .error .typeMismatch := by
  unfold findStartB
  split
  · split
    · split
      · rename_i e heq
        intro hcon
        injection hcon with hcon
        subst hcon
        exact getB_noTM F _ heq
      · simp
    · exact findScanB_noTM F fuel _ hp
  · exact findScanB_noTM F fuel _ hp

theorem initB_noTM (F : FlowB) (fuel : Nat) (s : Option String) (hp : Bool)
    (ht : strIncludes F.type "flowchart" = true) :
    initB F fuel s hp ≠ .error .typeMismatch := by
  have hc : checkTypeB F = .ok () := by
    unfold checkTypeB
    rw [if_pos ht]
  unfold initB
  rw [hc]
  exact findStartB_noTM F fuel s hp

/-- Claim C7: construction rejects with the graph-type-mismatch error
exactly when the supplied graph's type fails the variant's notion of a
conversation graph (equality with "conversation" in variant A,
containing "flowchart" in variant B): a failing type always rejects
before any state is produced, a passing type can never surface this
error from construction, and the concrete barchart graph is rejected by
both variants. -/
theorem C7_graph_type_guard :
    (∀ F : FlowA, checkTypeA F = .ok () ↔ F.type = "conversation") ∧
    (∀ F : FlowB, checkTypeB F = .ok () ↔ strIncludes F.type "flowchart" = true) ∧
    (∀ (F : FlowA) (fuel : Nat) (s : Option String) (hp : Bool),
       F.type = "conversation" → initA F fuel s hp ≠ .error .typeMismatch) ∧
    (∀ (F : FlowB) (fuel : Nat) (s : Option String) (hp : Bool),
       strIncludes F.type "flowchart" = true → initB F fuel s hp ≠ .error .typeMismatch) ∧
    (∀ (F : FlowA) (fuel : Nat) (s : Option String) (hp : Bool),
       F.type ≠ "conversation" → initA F fuel s hp = .error .typeMismatch) ∧
    (∀ (F : FlowB) (fuel : Nat) (s : Option String) (hp : Bool),
       strIncludes F.type "flowchart" = false → initB F fuel s hp = .error .typeMismatch) ∧
    initA { type := "barchart" } 4 none false = .error .typeMismatch ∧
    initB { type := "barchart" } 4 none false = .error .typeMismatch := by
  refine ⟨?_, ?_, ?_, ?_, ?_, ?_, by rfl, by rfl⟩
  · intro F
    unfold checkTypeA
    by_cases h : F.type = "conversation"
    · simp [h]
    · simp [h]
  · intro F
    unfold checkTypeB
    by_cases h : strIncludes F.type "flowchart" = true
    · simp [h]
    · simp at h
      simp [h]
  · intro F fuel s hp ht
    exact initA_noTM F fuel s hp ht
  · intro F fuel s hp ht
    exact initB_noTM F fuel s hp ht
  · intro F fuel s hp ht
    unfold initA checkTypeA
    rw [if_neg (by simp [ht])]
  · intro F fuel s hp ht
    unfold initB checkTypeB
    rw [if_neg (by simp [ht])]

/-- Witness for C7: the conversation-typed and flowchart-typed sample
graphs pass their guards and never surface the type-mismatch error. -/
theorem C7_witness :
    WF1a.type = "conversation" ∧ initA WF1a 4 none false ≠ .error .typeMismatch ∧
    strIncludes WF1b.type "flowchart" = true ∧
    initB WF1b 4 none false ≠ .error .typeMismatch :=
  ⟨rfl, C7_graph_type_guard.2.2.1 WF1a 4 none false rfl, by decide,
   C7_graph_type_guard.2.2.2.1 WF1b 4 none false (by decide)⟩

/-- Counterexample to C4 as stated: in variant A a subroutine vertex
carrying a src locator but no embedded flow still fails with the
missing-subroutine-source error (variant A only checks props.flow).
The same vertex in variant B escapes that error but does not resolve
either: get forwards props with the destructured src removed, so the
nested conversation is constructed without a flow and its own type
guard throws. -/
theorem C4_counterexample :
    (WF4a.steps.lookup "sub").map (fun v => v.src) = some (some "./sub.json") ∧
    getA WF4a "sub" = .error (.missingSub "sub") ∧
    getB WF4b "sub" = .error (.subflowMismatch "sub") :=
  ⟨by rfl, by rfl, by rfl⟩

/-- Claim C4 (amended): resolving a subroutine vertex fails with the
missing-subroutine-source error iff, in variant B, the vertex has
neither a truthy src locator nor an embedded nested flow, and iff, in
variant A, it has no embedded nested flow — variant A fails even when a
src locator is present.  A variant B subroutine vertex carrying only a
src locator escapes the missing-source error but still rejects: get
destructures src out of the forwarded props, so the nested conversation
is constructed without a flow and its own type guard throws. -/
theorem C4_subroutine_source :
    (∀ (F : FlowA) (id : String) (v : VertexA),
       F.steps.lookup id = some v → v.vtype = some "subroutine" →
       (getA F id = .error (.missingSub id) ↔ v.flowType = none)) ∧
    (∀ (F : FlowB) (id : String) (v : VertexB),
       F.vertices.lookup id = some v → v.vtype = some "subroutine" →
       (getB F id = .error (.missingSub id) ↔
         (srcFalsy v.src = true ∧ v.flowType = none))) ∧
    (∀ (F : FlowB) (id : String) (v : VertexB),
       F.vertices.lookup id = some v → v.vtype = some "subroutine" →
       srcFalsy v.src = false → v.flowType = none →
       getB F id = .error (.subflowMismatch id)) := by
  refine ⟨?_, ?_, ?_⟩
  · intro F id v hl hv
    unfold getA
    rw [hl]
    simp only [hv]
    cases hft : v.flowType with
    | none => simp
    | some t =>
      by_cases htc : t = "conversation"
      · simp [htc]
      · simp [htc]
  · intro F id v hl hv
    unfold getB
    rw [hl]
    simp only [hv]
    cases hs : srcFalsy v.src with
    | true =>
      cases hft : v.flowType with
      | none => simp
      | some t =>
        by_cases htc : strIncludes t "flowchart" = true
        · simp [htc]
        · simp [htc]
    | false =>
      cases hft : v.flowType with
      | none => simp
      | some t =>
        by_cases htc : strIncludes t "flowchart" = true
        · simp [htc]
        · simp [htc]
  · intro F id v hl hv hs hft
    unfold getB
    rw [hl]
    simp [hv, hs, hft]

/-- Witness for C4: the variant B subroutine vertex with a src locator
and no embedded flow does not fail with the missing-source error — its
resolution rejects with the nested constructor's type error instead. -/
theorem C4_witness :
    WF4b.vertices.lookup "sub" = some { id := "sub"
                                        vtype := some "subroutine"
                                        src := some "./sub.json"
                                        flowType := none } ∧
    getB WF4b "sub" ≠ .error (.missingSub "sub") ∧
    getB WF4b "sub" = .error (.subflowMismatch "sub") := by
  refine ⟨rfl, ?_, C4_subroutine_source.2.2 WF4b "sub" _ rfl rfl rfl rfl⟩
  intro hcon
  have h := (C4_subroutine_source.2.1 WF4b "sub" _ rfl rfl).mp hcon
  simp [srcFalsy] at h

/-- Claim C2 (variant B defect): at a state whose history holds the
breadcrumb c1 reporting not complete, variant B's isComplete still
resolves true — Boolean(await Promise.all([...])) takes the Boolean of
an Array, true whatever the per-step answers are, and the current step
is never consulted — while variant A's conjunction over the current
step and every breadcrumb resolves false on the analogous state. -/
theorem C2_isComplete_bug :
    (isCompleteB WF2b WS2b false).map Prod.fst = .ok true ∧
    (qCompleteB WS2b.counts "c1" (hookOfB WF2b "c1")).map Prod.fst = .ok false ∧
    (isCompleteA WF2a WS2a false).1 = false :=
  ⟨by rfl, by rfl, by rfl⟩

/-- Claim C6: with a leaf current hook, back() on a non-empty history
returns and adopts exactly the most recent breadcrumb, shortens the
history by one and broadcasts "back"; at a root with empty history it
returns undefined and leaves the state unchanged — in both variants. -/
theorem C6_back :
    (∀ (F : FlowA) (st : ConvA),
       currentIsSubA F st = false →
       (st.crumbs ≠ [] →
          backA F st false =
            (.ret st.crumbs.getLast?,
             { st with crumbs := st.crumbs.dropLast
                       current := st.crumbs.getLast?
                       events := notify st.hasParent st.events "back" st.crumbs.getLast? }) ∧
          (backA F st false).2.crumbs.length + 1 = st.crumbs.length ∧
          notify st.hasParent st.events "back" st.crumbs.getLast? =
            st.events ++ [("back", st.crumbs.getLast?)]) ∧
       (st.crumbs = [] → st.hasParent = false →
          backA F st false = (.ret none, st))) ∧
    (∀ (F : FlowB) (st : ConvB),
       currentIsSubB F st = false →
       (st.crumbs ≠ [] →
          backB F st false =
            (.ret st.crumbs.getLast?,
             { st with crumbs := st.crumbs.dropLast
                       current := st.crumbs.getLast?
                       events := notify st.hasParent st.events "back" st.crumbs.getLast? }) ∧
          (backB F st false).2.crumbs.length + 1 = st.crumbs.length ∧
          notify st.hasParent st.events "back" st.crumbs.getLast? =
            st.events ++ [("back", st.crumbs.getLast?)]) ∧
       (st.crumbs = [] → st.hasParent = false →
          backB F st false = (.ret none, st))) := by
  constructor
  · intro F st hsub
    constructor
    · intro hne
      have hemp : st.crumbs.isEmpty = false := by
        simpa [List.isEmpty_iff] using hne
      have heq : backA F st false =
          (.ret st.crumbs.getLast?,
           { st with crumbs := st.crumbs.dropLast
                     current := st.crumbs.getLast?
                     events := notify st.hasParent st.events "back" st.crumbs.getLast? }) := by
        unfold backA
        rw [hsub, hemp]
        rfl
      refine ⟨heq, ?_, ?_⟩
      · rw [heq]
        show st.crumbs.dropLast.length + 1 = st.crumbs.length
        rw [List.length_dropLast]
        have hpos : 1 ≤ st.crumbs.length := List.length_pos.mpr hne
        omega
      · unfold notify
        rw [if_pos (by simp)]
    · intro hcr hpar
      unfold backA
      rw [hsub, hcr, hpar]
      rfl
  · intro F st hsub
    constructor
    · intro hne
      have hemp : st.crumbs.isEmpty = false := by
        simpa [List.isEmpty_iff] using hne
      have heq : backB F st false =
          (.ret st.crumbs.getLast?,
           { st with crumbs := st.crumbs.dropLast
                     current := st.crumbs.getLast?
                     events := notify st.hasParent st.events "back" st.crumbs.getLast? }) := by
        unfold backB
        rw [hsub, hemp]
        rfl
      refine ⟨heq, ?_, ?_⟩
      · rw [heq]
        show st.crumbs.dropLast.length + 1 = st.crumbs.length
        rw [List.length_dropLast]
        have hpos : 1 ≤ st.crumbs.length := List.length_pos.mpr hne
        omega
      · unfold notify
        rw [if_pos (by simp)]
    · intro hcr hpar
      unfold backB
      rw [hsub, hcr, hpar]
      rfl

/-- Witness for C6: backing out of the history [a, b] pops b and
shortens the history from two entries to one. -/
theorem C6_witness :
    currentIsSubA WF6a WS6a = false ∧ WS6a.crumbs ≠ [] ∧
    (backA WF6a WS6a false).2.crumbs.length + 1 = WS6a.crumbs.length :=
  ⟨rfl, by decide, ((C6_back.1 WF6a WS6a rfl).1 (by decide)).2.1⟩

theorem scanToA_firstReady (F : FlowA) (r : String → Bool) :
    ∀ (edges : List Edge), (∀ e ∈ edges, readyQA F e.end_ = .ok (r e.end_)) →
      scanToA F edges = .ok (firstReadySpec r edges) := by
  intro edges
  induction edges with
  | nil =>
    intro h
    rfl
  | cons e es ih =>
    intro h
    have he := h e (List.mem_cons_self e es)
    have hrest : ∀ x ∈ es, readyQA F x.end_ = .ok (r x.end_) := by
      intro x hx
      exact h x (List.mem_cons_of_mem e hx)
    unfold scanToA firstReadySpec
    rw [he]
    cases hr : r e.end_ with
    | true => simp
    | false =>
      simp only [Bool.false_eq_true, if_false]
      exact ih hrest

theorem scanToB_lastReady (F : FlowB) (r : String → Bool) :
    ∀ (edges : List Edge), (∀ e ∈ edges, readyQB F e.end_ = .ok (r e.end_)) →
      scanToB F edges = .ok (lastReadySpec r edges) := by
  intro edges
  induction edges with
  | nil =>
    intro h
    rfl
  | cons e es ih =>
    intro h
    have he := h e (List.mem_cons_self e es)
    have hrest : ∀ x ∈ es, readyQB F x.end_ = .ok (r x.end_) := by
      intro x hx
      exact h x (List.mem_cons_of_mem e hx)
    unfold scanToB lastReadySpec
    rw [he, ih hrest]

theorem lastReadySpec_none (r : String → Bool) :
    ∀ (es : List Edge), (∀ x ∈ es, r x.end_ = false) → lastReadySpec r es = none := by
  intro es
  induction es with
  | nil =>
    intro h
    rfl
  | cons e es ih =>
    intro h
    unfold lastReadySpec
    rw [ih (fun x hx => h x (List.mem_cons_of_mem e hx)), h e (List.mem_cons_self e es)]
    rfl

theorem firstReady_eq_lastReady (r : String → Bool) :
    ∀ (edges : List Edge), edges.countP (fun e => r e.end_) ≤ 1 →
      firstReadySpec r edges = lastReadySpec r edges := by
  intro edges
  induction edges with
  | nil =>
    intro h
    rfl
  | cons e es ih =>
    intro h
    unfold firstReadySpec lastReadySpec
    cases hr : r e.end_ with
    | false =>
      have h1 : es.countP (fun x => r x.end_) ≤ 1 := by
        rw [List.countP_cons, hr] at h
        simpa using h
      rw [ih h1]
      cases hl : lastReadySpec r es with
      | none => simp [hr, Option.orElse]
      | some v => simp [hr, Option.orElse]
    | true =>
      have hz : es.countP (fun x => r x.end_) = 0 := by
        rw [List.countP_cons, hr] at h
        simp only [if_true] at h
        omega
      have hnone : lastReadySpec r es = none := by
        apply lastReadySpec_none
        intro x hx
        have hxp := List.countP_eq_zero.mp hz x hx
        simpa using hxp
      rw [hnone]
      simp [hr, Option.orElse]

/-- Counterexample to C1 as stated: from the completed step start whose
two declared successors a then b are both ready, variant B's advance
lands on b, the later-declared candidate, although the first-declared
candidate a is ready. -/
theorem C1_counterexample :
    (continueB WF1c 4 WS1b none false).map Prod.fst = .ok (NavOut.ret (some "b")) ∧
    firstReadySpec readyW1c (edgesToB WF1c "start") = some "a" ∧
    readyQB WF1c "a" = .ok true ∧ ("b" : String) ≠ "a" :=
  ⟨by rfl, by decide, by rfl, by decide⟩

/-- Claim C1 (amended): with no explicit target from a completed step,
variant A's scan of the outgoing edges in declared order selects the
first-declared ready successor (first-ready-wins), while variant B's
scan selects the last-declared ready successor; the two policies agree
whenever at most one successor is ready — in particular, in the
skip/next scenario (skip not ready, next ready) both variants land on
next and never on skip. -/
theorem C1_successor_scan :
    (∀ (F : FlowA) (r : String → Bool) (edges : List Edge),
       (∀ e ∈ edges, readyQA F e.end_ = .ok (r e.end_)) →
       scanToA F edges = .ok (firstReadySpec r edges)) ∧
    (∀ (F : FlowB) (r : String → Bool) (edges : List Edge),
       (∀ e ∈ edges, readyQB F e.end_ = .ok (r e.end_)) →
       scanToB F edges = .ok (lastReadySpec r edges)) ∧
    (∀ (r : String → Bool) (edges : List Edge),
       edges.countP (fun e => r e.end_) ≤ 1 →
       firstReadySpec r edges = lastReadySpec r edges) ∧
    (continueA WF1a 4 WS1a none false).map Prod.fst = .ok (NavOut.ret (some "next")) ∧
    (continueB WF1b 4 WS1b none false).map Prod.fst = .ok (NavOut.ret (some "next")) :=
  ⟨scanToA_firstReady, scanToB_lastReady, firstReady_eq_lastReady, by rfl, by rfl⟩

/-- Witness for C1: over the two-successor flow the readiness
hypothesis holds pointwise and variant B's scan computes the
last-ready policy. -/
theorem C1_witness :
    (∀ e ∈ edgesToB WF1c "start", readyQB WF1c e.end_ = .ok (readyW1c e.end_)) ∧
    scanToB WF1c (edgesToB WF1c "start") =
      .ok (lastReadySpec readyW1c (edgesToB WF1c "start")) := by
  have hh : ∀ e ∈ edgesToB WF1c "start", readyQB WF1c e.end_ = .ok (readyW1c e.end_) := by
    decide
  exact ⟨hh, C1_successor_scan.2.1 WF1c readyW1c _ hh⟩

theorem getA_id (F : FlowA) (s : String) (x : Step) (h : getA F s = .ok (some x)) :
    x.id = s := by
  unfold getA at h
  split at h
  · simp at h
  · split at h
    · split at h
      · simp at h
      · split at h
        · injection h with h
          injection h with h
          rw [← h]
        · simp at h
    · injection h with h
      injection h with h
      rw [← h]

theorem findLoopA_ready (F : FlowA) (fuel : Nat) (stp : Step) (rest : List String)
    (hr : stepReady stp.hook = true) :
    findLoopA F (fuel+1) (some stp) rest = .ok (some stp) := by
  have h1 : stepReadyOpt (some stp) = true := hr
  unfold findLoopA
  rw [h1]
  rfl

/-- Counterexample to C3 as stated: variant A does not trust an
explicit start whose isReady() resolves false — over the flow whose
only vertex other is not ready, construction with start other rejects
with the no-starting-point error instead of adopting it, and isReady()
rejects rather than resolving true. -/
theorem C3_counterexample :
    initA WF3a 4 (some "other") false = .error .noStart ∧
    isReadyA (initA WF3a 4 (some "other") false) = .error .noStart :=
  ⟨by rfl, by rfl⟩

/-- Claim C3 (amended): variant B's findStart resolves an explicit
start id naming a vertex and adopts it as current with no readiness
requirement, after which isReady() resolves true; variant A adopts an
explicit start only when its isReady() resolves true (otherwise it
falls back to the entry scan and can fail with the no-starting-point
error). -/
theorem C3_find_start :
    (∀ (F : FlowB) (s : String) (v : VertexB) (fuel : Nat) (hp : Bool) (r : Option Step),
       F.vertices.lookup s = some v → getB F s = .ok r →
       ∃ c, findStartB F fuel (some s) hp = .ok c ∧ c.current = some s ∧
            isReadyB (findStartB F fuel (some s) hp) = .ok true) ∧
    (∀ (F : FlowA) (s : String) (stp : Step) (fuel : Nat) (hp : Bool),
       F.type = "conversation" → (s == "") = false →
       getA F s = .ok (some stp) → stepReady stp.hook = true →
       ∃ c, initA F (fuel+1) (some s) hp = .ok c ∧ c.current = some s ∧
            isReadyA (initA F (fuel+1) (some s) hp) = .ok true) := by
  constructor
  · intro F s v fuel hp r hl hg
    have hid : r.map (fun x => x.id) = some s := getB_current_id F s v r hl hg
    unfold findStartB
    simp only []
    rw [hl]
    simp only [Option.isSome_some, if_true]
    rw [hg]
    simp only []
    refine ⟨_, rfl, ?_, ?_⟩
    · exact hid
    · unfold isReadyB
      simp only []
      rw [hid]
      rfl
  · intro F s stp fuel hp ht hne hg hr
    have hc : checkTypeA F = .ok () := by
      unfold checkTypeA
      rw [if_pos (by simp [ht])]
    have hid : stp.id = s := getA_id F s stp hg
    unfold initA
    rw [hc]
    simp only []
    rw [hne]
    simp only [Bool.false_eq_true, if_false]
    rw [hg]
    simp only []
    rw [findLoopA_ready F fuel stp F.starts hr]
    simp only []
    refine ⟨_, rfl, ?_, ?_⟩
    · rw [hid]
    · unfold isReadyA
      rfl

/-- Witness for C3: variant B adopts the never-ready explicit start
other, and isReady() afterwards resolves true. -/
theorem C3_witness :
    (WF3b.vertices.lookup "other").isSome = true ∧
    (∃ c, findStartB WF3b 1 (some "other") false = .ok c ∧ c.current = some "other" ∧
          isReadyB (findStartB WF3b 1 (some "other") false) = .ok true) :=
  ⟨rfl, C3_find_start.1 WF3b "other" _ 1 false _ rfl rfl⟩

theorem findLoopA_unready (F : FlowA) (hsp : F.steps.lookup " " = none) :
    ∀ (rest : List String) (fuel : Nat) (s? : Option Step),
      (∀ id ∈ rest, ∃ r, getA F id = .ok r ∧ stepReadyOpt r = false) →
      stepReadyOpt s? = false →
      rest.length + 2 ≤ fuel →
      findLoopA F fuel s? rest = .ok none := by
  intro rest
  induction rest with
  | nil =>
    intro fuel s? hall hs hf
    obtain ⟨n, rfl⟩ : ∃ n, fuel = n + 2 := ⟨fuel - 2, by omega⟩
    have hg : getA F " " = .ok none := by
      unfold getA
      rw [hsp]
    cases s? with
    | none => rfl
    | some stp =>
      have hs' : stepReadyOpt (some stp) = false := hs
      show findLoopA F (n + 1 + 1) (some stp) [] = .ok none
      unfold findLoopA
      rw [hs']
      simp only [Bool.false_eq_true, if_false]
      rw [show ([] : List String).headD " " = " " from rfl, hg]
      simp only []
      unfold findLoopA
      rfl
  | cons a as ih =>
    intro fuel s? hall hs hf
    obtain ⟨n, rfl⟩ : ∃ n, fuel = n + 1 := ⟨fuel - 1, by omega⟩
    obtain ⟨r, hgr, hrr⟩ := hall a (List.mem_cons_self a as)
    unfold findLoopA
    rw [hs]
    simp only [List.isEmpty_cons, Bool.and_false, Bool.false_eq_true, if_false]
    rw [show (a :: as).headD " " = a from rfl, hgr]
    simp only []
    refine ih n r (fun id hid => hall id (List.mem_cons_of_mem a hid)) hrr ?_
    have : (a :: as).length = as.length + 1 := by simp
    omega

/-- Claim C8: over variant A, a flow with no explicit start id whose
declared entries all resolve without becoming ready makes findStart
fail with the no-starting-point error, and the conversation's isReady()
rejects with that error instead of resolving to a boolean. -/
theorem C8_no_ready_entry :
    ∀ (F : FlowA) (fuel : Nat) (hp : Bool),
      F.type = "conversation" →
      F.steps.lookup " " = none →
      (∀ id ∈ F.starts, ∃ r, getA F id = .ok r ∧ stepReadyOpt r = false) →
      F.starts.length + 2 ≤ fuel →
      initA F fuel none hp = .error .noStart ∧
      isReadyA (initA F fuel none hp) = .error .noStart := by
  intro F fuel hp ht hsp hall hf
  have hc : checkTypeA F = .ok () := by
    unfold checkTypeA
    rw [if_pos (by simp [ht])]
  have hloop : findLoopA F fuel none F.starts = .ok none :=
    findLoopA_unready F hsp F.starts fuel none hall rfl hf
  have h1 : initA F fuel none hp = .error .noStart := by
    unfold initA
    rw [hc]
    simp only []
    rw [hloop]
  refine ⟨h1, ?_⟩
  rw [h1]
  rfl

/-- Witness for C8: the flow whose single entry s1 is never ready
rejects with the no-starting-point error. -/
theorem C8_witness :
    WF8a.type = "conversation" ∧
    initA WF8a 4 none false = .error .noStart ∧
    isReadyA (initA WF8a 4 none false) = .error .noStart := by
  have hall : ∀ id ∈ WF8a.starts, ∃ r, getA WF8a id = .ok r ∧ stepReadyOpt r = false := by
    intro id hid
    have hid1 : id = "s1" := by simpa [WF8a] using hid
    subst hid1
    exact ⟨_, rfl, rfl⟩
  have h := C8_no_ready_entry WF8a 4 false rfl rfl hall (by decide)
  exact ⟨rfl, h.1, h.2⟩

theorem continueA_incomplete (F : FlowA) (st : ConvA) (sid : String) (h : HookO)
    (f : Nat → Bool) (fuel : Nat)
    (hcur : st.current = some sid) (hgen : st.genNext = some sid)
    (hdone : st.genDone = false)
    (hhook : hookOfA F sid = some (.leaf h)) (hic : h.isComplete = some f)
    (hf : ∀ k, f k = false) :
    continueA F (fuel+1) st none false =
      .ok (.ret (some sid), { st with counts := bump st.counts sid }) := by
  have hsub : currentIsSubA F st = false := by
    unfold currentIsSubA
    rw [hcur]
    simp only []
    rw [hhook]
    rfl
  have hq : qCompleteA st.counts sid (hookOfA F sid) = (false, bump st.counts sid) := by
    rw [hhook]
    unfold qCompleteA
    simp only []
    rw [hic]
    simp only []
    rw [hf]
  have hadv : advA F (fuel+1) (some sid) none st.counts st.crumbs =
      (.ok ⟨some sid, false⟩, bump st.counts sid, st.crumbs) := by
    unfold advA
    simp only []
    rw [hq]
    simp only [Bool.false_eq_true, if_false]
  unfold continueA
  rw [hsub, hdone, hgen, hcur]
  simp only [Bool.and_false, Bool.false_eq_true, if_false, hadv]
  simp only [beq_self_eq_true, if_true]
  rfl

theorem continueB_incomplete (F : FlowB) (st : ConvB) (sid : String) (h : HookO)
    (f : Nat → Bool) (fuel : Nat)
    (hcur : st.current = some sid) (hstarted : st.genStarted = true)
    (hdone : st.genDone = false)
    (hhook : hookOfB F sid = some (.leaf h)) (hic : h.isComplete = some f)
    (hf : ∀ k, f k = false) :
    continueB F (fuel+1) st none false =
      .ok (.ret (some sid),
           { st with counts := bump (bump st.counts sid) sid
                     current := some sid
                     events := notify st.hasParent st.events "continue" (some sid) }) := by
  have hsub : currentIsSubB F st = false := by
    unfold currentIsSubB
    rw [hcur]
    simp only []
    rw [hhook]
    rfl
  have hq : ∀ (c : String → Nat), qCompleteB c sid (hookOfB F sid) = .ok (false, bump c sid) := by
    intro c
    rw [hhook]
    unfold qCompleteB
    simp only []
    rw [hic]
    simp only []
    rw [hf]
  have hadv : advB F st none =
      .ok (⟨some sid, false⟩, { st with counts := bump st.counts sid }) := by
    unfold advB
    simp only []
    rw [hcur]
    simp only []
    rw [hq st.counts]
    simp only [Bool.false_eq_true, if_false]
  have hgn : genNextB F st none =
      .ok (⟨some sid, false⟩, { st with counts := bump st.counts sid, genDone := false }) := by
    unfold genNextB
    rw [hdone, hstarted]
    simp only [Bool.false_eq_true, if_false, Bool.not_true]
    rw [hadv]
    simp only [hstarted]
  unfold continueB
  rw [hsub]
  simp only [Bool.and_false, Bool.false_eq_true, if_false]
  rw [hgn]
  simp only []
  rw [hq (bump st.counts sid)]
  simp only [Bool.false_eq_true, if_false]
  rw [hdone]
  rfl

theorem iterContA_incomplete (F : FlowA) (sid : String) (h : HookO) (f : Nat → Bool)
    (fuel : Nat) (hhook : hookOfA F sid = some (.leaf h)) (hic : h.isComplete = some f)
    (hf : ∀ k, f k = false) :
    ∀ (n : Nat) (st : ConvA), st.current = some sid → st.genNext = some sid →
      st.genDone = false →
      ((iterContA F (fuel+1))^[n] st).current = some sid ∧
      ((iterContA F (fuel+1))^[n] st).crumbs = st.crumbs := by
  intro n
  induction n with
  | zero =>
    intro st h1 h2 h3
    exact ⟨h1, rfl⟩
  | succ m ih =>
    intro st h1 h2 h3
    rw [Function.iterate_succ_apply]
    have hstep := continueA_incomplete F st sid h f fuel h1 h2 h3 hhook hic hf
    have hiter : iterContA F (fuel+1) st = { st with counts := bump st.counts sid } := by
      unfold iterContA
      rw [hstep]
    rw [hiter]
    exact ih { st with counts := bump st.counts sid } h1 h2 h3

theorem iterContB_incomplete (F : FlowB) (sid : String) (h : HookO) (f : Nat → Bool)
    (fuel : Nat) (hhook : hookOfB F sid = some (.leaf h)) (hic : h.isComplete = some f)
    (hf : ∀ k, f k = false) :
    ∀ (n : Nat) (st : ConvB), st.current = some sid → st.genStarted = true →
      st.genDone = false →
      ((iterContB F (fuel+1))^[n] st).current = some sid ∧
      ((iterContB F (fuel+1))^[n] st).crumbs = st.crumbs := by
  intro n
  induction n with
  | zero =>
    intro st h1 h2 h3
    exact ⟨h1, rfl⟩
  | succ m ih =>
    intro st h1 h2 h3
    rw [Function.iterate_succ_apply]
    have hstep := continueB_incomplete F st sid h f fuel h1 h2 h3 hhook hic hf
    have hiter : iterContB F (fuel+1) st =
        { st with counts := bump (bump st.counts sid) sid
                  current := some sid
                  events := notify st.hasParent st.events "continue" (some sid) } := by
      unfold iterContB
      rw [hstep]
    rw [hiter]
    exact ih _ rfl h2 h3

/-- Claim C5: while the current step keeps reporting not complete,
continue() with no arguments returns that same step and leaves the
breadcrumbs unchanged, and repeatedly calling it keeps the conversation
on that step — in variant A without any notification (the same-id early
return), in variant B with a "continue" notification of the unchanged
step; each call only consumes isComplete answers (one in variant A, two
in variant B). -/
theorem C5_continue_idempotent :
    (∀ (F : FlowA) (st : ConvA) (sid : String) (h : HookO) (f : Nat → Bool) (fuel : Nat),
       st.current = some sid → st.genNext = some sid → st.genDone = false →
       hookOfA F sid = some (.leaf h) → h.isComplete = some f → (∀ k, f k = false) →
       continueA F (fuel+1) st none false =
         .ok (.ret (some sid), { st with counts := bump st.counts sid }) ∧
       (∀ n, ((iterContA F (fuel+1))^[n] st).current = some sid ∧
             ((iterContA F (fuel+1))^[n] st).crumbs = st.crumbs)) ∧
    (∀ (F : FlowB) (st : ConvB) (sid : String) (h : HookO) (f : Nat → Bool) (fuel : Nat),
       st.current = some sid → st.genStarted = true → st.genDone = false →
       hookOfB F sid = some (.leaf h) → h.isComplete = some f → (∀ k, f k = false) →
       continueB F (fuel+1) st none false =
         .ok (.ret (some sid),
              { st with counts := bump (bump st.counts sid) sid
                        current := some sid
                        events := notify st.hasParent st.events "continue" (some sid) }) ∧
       (∀ n, ((iterContB F (fuel+1))^[n] st).current = some sid ∧
             ((iterContB F (fuel+1))^[n] st).crumbs = st.crumbs)) := by
  constructor
  · intro F st sid h f fuel h1 h2 h3 hhook hic hf
    exact ⟨continueA_incomplete F st sid h f fuel h1 h2 h3 hhook hic hf,
           fun n => iterContA_incomplete F sid h f fuel hhook hic hf n st h1 h2 h3⟩
  · intro F st sid h f fuel h1 h2 h3 hhook hic hf
    exact ⟨continueB_incomplete F st sid h f fuel h1 h2 h3 hhook hic hf,
           fun n => iterContB_incomplete F sid h f fuel hhook hic hf n st h1 h2 h3⟩

/-- Witness for C5: the never-complete step s stays current across a
continue() call and across three repeated calls, with untouched
breadcrumbs, in both variants. -/
theorem C5_witness :
    WS5a.current = some "s" ∧
    continueA WF5a 2 WS5a none false =
      .ok (.ret (some "s"), { WS5a with counts := bump WS5a.counts "s" }) ∧
    ((iterContA WF5a 2)^[3] WS5a).crumbs = WS5a.crumbs ∧
    ((iterContB WF5b 2)^[3] WS5b).current = some "s" := by
  have ha := C5_continue_idempotent.1 WF5a WS5a "s" hReady (fun _ => false) 1
    rfl rfl rfl rfl rfl (fun k => rfl)
  have hb := C5_continue_idempotent.2 WF5b WS5b "s" hReady (fun _ => false) 1
    rfl rfl rfl rfl rfl (fun k => rfl)
  exact ⟨rfl, ha.1, (ha.2 3).2, (hb.2 3).1⟩
